import Mathlib

/-!
Shallow embedding of the BAC0 task scheduler (`BAC0/tasks/TaskManager.py`)
and the device liveness sweep (`BAC0/scripts/Lite.py`), with theorems
settling the specification claims about them.

Time values (`time.time()` results, delays, jitter) are modelled as
rationals.  Python callables passed as task payloads are modelled by
natural-number labels whose behaviour (success or raised exception) is
supplied by an environment, so that invocations can be counted in an
event trace.  Python exceptions are an explicit inductive type and
fallible code returns `Except`.
-/

namespace BAC0

/-- Exceptions that can be raised by the modelled code paths. -/
inductive Exc where
  | notImplementedError
  | numerousPingFailures
  | timeout
  | noResponseFromController
  | attributeError
  | other (n : Nat)
  deriving DecidableEq, Repr

/-- Opaque argument value bound to a callable (the `args` half of a
`(fn, args)` tuple passed to `Task.__init__`). -/
abbrev Arg := Nat

/-- Keyword parameters for the virtual `task()` method (`self._kwargs`). -/
abbrev Kwargs := Nat

/-- The `fn` parameter of `Task.__init__`: Python `None`, a bare callable,
or a `(callable, args)` tuple.  Callables are labels interpreted by `Env`. -/
inductive FnParam where
  | noneP
  | bare (f : Nat)
  | tupled (f : Nat) (a : Arg)
  deriving DecidableEq, Repr

/-- State of a `Task` object (`TaskManager.py`, `Task.__init__`).
`taskMethod = 0` is the base-class virtual `task()` (which raises
`NotImplementedError`); a positive value is a subclass override whose
behaviour the environment supplies. -/
structure Task where
  id : Nat
  name : String
  fn : Option Nat
  args : Option Arg
  delay : ℚ
  previous_execution : Option ℚ
  average_execution_delay : ℚ
  average_latency : ℚ
  next_execution : ℚ
  execution_time : ℚ
  count : Nat
  kwargs : Option Kwargs
  internal_task : Option Nat
  aio_task : Option Nat
  taskMethod : Nat
  deriving DecidableEq, Repr

/-- Behaviour of the external world: what each callable label does when
invoked, and what each overridden virtual `task()` body does. -/
structure Env where
  fnBehavior : Nat → Option Arg → Except Exc Unit
  taskOverride : Nat → Option Kwargs → Except Exc Unit

/-- Events recorded while a task body runs: payload invocations and the
cooperative sleep of the recurring loop. -/
inductive Event where
  | callFn (f : Nat) (a : Option Arg)
  | callTask (m : Nat) (k : Option Kwargs)
  | sleep (d : ℚ)
  deriving DecidableEq, Repr

/-- `Task.__init__(fn, name, delay)`.  `idv` models `id(self)`, `now`
models `time.time()` and `jitter` models `random() * 10`. -/
def Task.init (fnp : FnParam) (name : Option String) (delay : ℚ)
    (idv : Nat) (now : ℚ) (jitter : ℚ) : Task :=
  { id := idv
    name := match name with
            | some n => n
            | none => "Task_" ++ toString idv
    fn := match fnp with
          | FnParam.noneP => none
          | FnParam.bare f => some f
          | FnParam.tupled f _ => some f
    args := match fnp with
            | FnParam.tupled _ a => some a
            | _ => none
    delay := if delay > 0 then (if delay ≥ 5 then delay else 5) else 0
    previous_execution := none
    average_execution_delay := 0
    average_latency := 0
    next_execution := now + delay + jitter
    execution_time := 0
    count := 0
    kwargs := none
    internal_task := none
    aio_task := none
    taskMethod := 0 }

/-- One payload invocation, shared by both branches of `Task.execute`:
`if self.fn and self.args is not None: await self.fn(self.args)
elif self.fn: await self.fn()` else dispatch the virtual `task()`
(with `self._kwargs` when present).  Returns the recorded event and the
payload's outcome. -/
def callPayload (env : Env) (t : Task) : Event × Except Exc Unit :=
  match t.fn with
  | some f =>
      match t.args with
      | some a => (Event.callFn f (some a), env.fnBehavior f (some a))
      | none => (Event.callFn f none, env.fnBehavior f none)
  | none =>
      match t.taskMethod with
      | 0 => (Event.callTask 0 t.kwargs, Except.error Exc.notImplementedError)
      | m + 1 => (Event.callTask (m + 1) t.kwargs, env.taskOverride m t.kwargs)

/-- The `else` (one-shot) branch of `Task.execute`: run the payload once;
the task's fields are untouched. -/
def Task.oneShot (env : Env) (t : Task) : List Event × Except Exc Task :=
  match callPayload env t with
  | (ev, Except.ok _) => ([ev], Except.ok t)
  | (ev, Except.error e) => ([ev], Except.error e)

/-- One iteration of the `while True` loop in `Task.execute` for
`delay > 0`: bump `count`, smooth the latency, run the payload (an
exception propagates out of the loop), smooth the execution delay,
record timing fields and sleep for `delay`.  `now` is `time.time()` at
loop entry and `elapsed` is the time the payload consumed, so
`time.time()` after the payload is `now + elapsed`. -/
def Task.loopIter (env : Env) (now elapsed : ℚ) (t : Task) :
    List Event × Except Exc Task :=
  let t1 := { t with
    count := t.count + 1
    average_latency := (t.average_latency + (now - t.next_execution)) / 2 }
  match callPayload env t1 with
  | (ev, Except.error e) => ([ev], Except.error e)
  | (ev, Except.ok _) =>
      let aed := match t1.previous_execution with
                 | some p => (t1.average_execution_delay + (now - p)) / 2
                 | none => t1.delay
      let t2 := { t1 with
        average_execution_delay := aed
        execution_time := (now + elapsed) - now
        previous_execution := some now
        next_execution := (now + elapsed) + t1.delay }
      ([ev, Event.sleep t2.delay], Except.ok t2)

/-- `Task.execute`: the recurring loop when `delay > 0` (modelled one
iteration at a time), the one-shot body otherwise. -/
def Task.execute (env : Env) (now elapsed : ℚ) (t : Task) :
    List Event × Except Exc Task :=
  if t.delay > 0 then Task.loopIter env now elapsed t
  else Task.oneShot env t

/-- `Task.stop`: `self._task.cancel()`.  `_task` is `None` unless
something assigned it; calling `.cancel()` on `None` raises
`AttributeError`.  On success the cancelled handle is returned. -/
def Task.stop (t : Task) : Except Exc Nat :=
  match t.internal_task with
  | none => Except.error Exc.attributeError
  | some h => Except.ok h

/-- `Task.__lt__`: `self.next_execution > other.next_execution`
(the deliberately inverted comparison used for display ordering). -/
def Task.pyLt (a b : Task) : Bool :=
  decide (a.next_execution > b.next_execution)

/-- `OneShotTask.__init__(fn, args, name)`: calls
`super().__init__(name=name, delay=0)`, forwarding neither `fn` nor
`args`. -/
def OneShotTask.init (fnp : FnParam) (args : Option Arg) (name : String)
    (idv : Nat) (now : ℚ) (jitter : ℚ) : Task :=
  Task.init FnParam.noneP (some name) 0 idv now jitter

/-- An `asyncio` task handle created by `asyncio.create_task` in
`Task.start`: which `Task` object it drives, whether cancellation has
been requested, and whether its coroutine has finished. -/
structure AioRec where
  taskId : Nat
  cancelled : Bool
  finished : Bool
  deriving DecidableEq, Repr

/-- Process-wide state: the object heap (identity to `Task` object
state), the class-level registry `Task.tasks` (a list of object
identities, since Python stores references), and the event loop's
tasks. -/
structure Sys where
  heap : List (Nat × Task)
  tasks : List Nat
  aioStore : List AioRec
  deriving DecidableEq, Repr

/-- Update the heap entry of one object identity. -/
def heapUpdate (h : List (Nat × Task)) (tid : Nat) (t : Task) :
    List (Nat × Task) :=
  h.map (fun p => if p.1 = tid then (tid, t) else p)

/-- `Task.start`: create an event-loop task driving `execute()`, assign
it to `self.aio_task`, and append `self` to `Task.tasks`.  An identity
not on the heap is a no-op (unreachable: a live object is on the heap). -/
def Sys.start (s : Sys) (tid : Nat) : Sys :=
  match s.heap.lookup tid with
  | none => s
  | some t =>
      let h := s.aioStore.length
      { heap := heapUpdate s.heap tid { t with aio_task := some h }
        tasks := s.tasks ++ [tid]
        aioStore := s.aioStore ++ [⟨tid, false, false⟩] }

/-- Set the `cancelled` flag of the record at position `h`. -/
def setCancelled : List AioRec → Nat → List AioRec
  | [], _ => []
  | r :: rest, 0 => { r with cancelled := true } :: rest
  | r :: rest, n + 1 => r :: setCancelled rest n

/-- Set the `finished` flag of the record at position `h`. -/
def setFinished : List AioRec → Nat → List AioRec
  | [], _ => []
  | r :: rest, 0 => { r with finished := true } :: rest
  | r :: rest, n + 1 => r :: setFinished rest n

/-- `asyncio.Task.cancel()` on handle `h`: request cancellation. -/
def Sys.cancelHandle (s : Sys) (h : Nat) : Sys :=
  { s with aioStore := setCancelled s.aioStore h }

/-- The loop of `stopAllTasks`: `for each in Task.tasks:
each.aio_task.cancel()`.  A `None` handle raises `AttributeError`. -/
def cancelAll (s : Sys) : List Nat → Except Exc Sys
  | [] => Except.ok s
  | tid :: rest =>
      match s.heap.lookup tid with
      | none => Except.error Exc.attributeError
      | some t =>
          match t.aio_task with
          | none => Except.error Exc.attributeError
          | some h => cancelAll (s.cancelHandle h) rest

/-- `stopAllTasks()`: cancel every registered task's handle, then
`Task.clean_tasklist()` (`cls.tasks = []`). -/
def Sys.stopAllTasks (s : Sys) : Except Exc Sys :=
  match cancelAll s s.tasks with
  | Except.error e => Except.error e
  | Except.ok s' => Except.ok { s' with tasks := [] }

/-- `Task.number_of_tasks()`: `len(cls.tasks)`. -/
def Sys.number_of_tasks (s : Sys) : Nat :=
  s.tasks.length

/-- One cooperative scheduling step of the event-loop task behind
handle `h`: a cancelled (or finished) coroutine unwinds without running
the payload; otherwise one iteration of `execute()` runs (the loop body
for `delay > 0`, the one-shot body otherwise), producing its events. -/
def Sys.runStep (env : Env) (now elapsed : ℚ) (s : Sys) (h : Nat) :
    Sys × List Event :=
  match s.aioStore.get? h with
  | none => (s, [])
  | some r =>
      if r.cancelled || r.finished then
        ({ s with aioStore := setFinished s.aioStore h }, [])
      else
        match s.heap.lookup r.taskId with
        | none => (s, [])
        | some t =>
            if t.delay > 0 then
              match Task.loopIter env now elapsed t with
              | (evs, Except.ok t') =>
                  ({ s with heap := heapUpdate s.heap r.taskId t' }, evs)
              | (evs, Except.error _) =>
                  ({ s with aioStore := setFinished s.aioStore h }, evs)
            else
              match Task.oneShot env t with
              | (evs, _) =>
                  ({ s with aioStore := setFinished s.aioStore h }, evs)

/-- Registry-affecting operations a caller can perform: `start()` on a
task object, or a cancellation request on an event-loop handle. -/
inductive SysOp where
  | start (tid : Nat)
  | cancel (h : Nat)
  deriving DecidableEq, Repr

/-- Apply one operation. -/
def Sys.applyOp (s : Sys) : SysOp → Sys
  | SysOp.start tid => s.start tid
  | SysOp.cancel h => s.cancelHandle h

/-- Apply a sequence of operations, first one first. -/
def Sys.applyOps (s : Sys) : List SysOp → Sys
  | [] => s
  | op :: rest => (s.applyOp op).applyOps rest

/-- An operation sequence is start-safe when no `start` targets an
object identity already present in the registry at that point. -/
def startSafe (s : Sys) : List SysOp → Prop
  | [] => True
  | op :: rest =>
      (match op with
       | SysOp.start tid => tid ∉ s.tasks
       | SysOp.cancel _ => True) ∧ startSafe (s.applyOp op) rest

instance (s : Sys) (ops : List SysOp) : Decidable (startSafe s ops) := by
  induction ops generalizing s with
  | nil => exact isTrue trivial
  | cons op rest ih =>
      have : Decidable ((match op with
       | SysOp.start tid => tid ∉ s.tasks
       | SysOp.cancel _ => True) ∧ startSafe (s.applyOp op) rest) := by
        have hd : Decidable (match op with
            | SysOp.start tid => tid ∉ s.tasks
            | SysOp.cancel _ => True) := by
          cases op with
          | start tid => exact inferInstance
          | cancel h => exact inferInstance
        exact @instDecidableAnd _ _ hd (ih (s.applyOp op))
      exact this

/-- Connection class of a registered device handle, as tested by the
`isinstance` checks in `ping_registered_devices`: `RPDeviceConnected`,
`RPMDeviceConnected`, or any other (generic) device class. -/
inductive DeviceKind where
  | rp
  | rpm
  | generic
  deriving DecidableEq, Repr

/-- The `device.properties` fields read or written by the sweep. -/
structure DeviceProps where
  name : String
  address : String
  device_id : Nat
  ping_failures : Nat
  pollDelay : ℚ
  deriving DecidableEq, Repr

/-- A registered device handle. -/
structure Device where
  kind : DeviceKind
  props : DeviceProps
  deriving DecidableEq, Repr

/-- External calls the sweep makes on device `i` (by position in the
`registered_devices` snapshot) or on the network facade about it. -/
inductive DAction where
  | ping (i : Nat)
  | readName (i : Nat)
  | disconnect (i : Nat) (unregister : Bool)
  | connect (i : Nat)
  | poll (i : Nat) (delay : ℚ)
  | unregister (i : Nat)
  deriving DecidableEq, Repr

/-- Behaviour of the network during one sweep: `pingResult i` is what
`device.ping()` does to device `i` (the device's new `ping_failures`
counter, or a raised exception), and `readResult i` is what
`self.read(...)` of device `i`'s object name returns (or raises). -/
structure PingEnv where
  pingResult : Nat → Except Exc Nat
  readResult : Nat → Except Exc String

/-- The body of the `for each in self.registered_devices` loop of
`Lite.ping_registered_devices` for one device.  For a ping-capable
device, `ping()` runs inside a `try` whose only handler catches
`NumerousPingFailures` (raised by the body itself when
`ping_failures > 3`, and handled by `disconnect(unregister=False)`);
any other exception propagates.  For a generic device, the object name
is read with no handler at all; on a matching name `ping_failures` is
reset to 0, then `connect` and `poll(pollDelay)` are issued. -/
def checkDevice (env : PingEnv) (i : Nat) (d : Device) :
    List DAction × Except Exc Device :=
  match d.kind with
  | DeviceKind.rp | DeviceKind.rpm =>
      (match env.pingResult i with
       | Except.error e =>
           if e = Exc.numerousPingFailures then
             ([DAction.ping i, DAction.disconnect i false], Except.ok d)
           else
             ([DAction.ping i], Except.error e)
       | Except.ok pf =>
           let d' := { d with props := { d.props with ping_failures := pf } }
           if d'.props.ping_failures > 3 then
             ([DAction.ping i, DAction.disconnect i false], Except.ok d')
           else
             ([DAction.ping i], Except.ok d'))
  | DeviceKind.generic =>
      match env.readResult i with
      | Except.error e => ([DAction.readName i], Except.error e)
      | Except.ok nm =>
          if nm = d.props.name then
            ([DAction.readName i, DAction.connect i,
              DAction.poll i d.props.pollDelay],
             Except.ok { d with props := { d.props with ping_failures := 0 } })
          else
            ([DAction.readName i], Except.ok d)

/-- `Lite.ping_registered_devices`, iterating the snapshot from
position `i`: each device is checked in turn; an uncaught exception
from one device's check aborts the remainder of the sweep. -/
def pingSweep (env : PingEnv) : Nat → List Device →
    List DAction × Except Exc (List Device)
  | _, [] => ([], Except.ok [])
  | i, d :: rest =>
      match checkDevice env i d with
      | (evs, Except.error e) => (evs, Except.error e)
      | (evs, Except.ok d') =>
          match pingSweep env (i + 1) rest with
          | (evs2, Except.error e) => (evs ++ evs2, Except.error e)
          | (evs2, Except.ok ds) => (evs ++ evs2, Except.ok (d' :: ds))

/-- Device index an action refers to. -/
def DAction.devIdx : DAction → Nat
  | DAction.ping i => i
  | DAction.readName i => i
  | DAction.disconnect i _ => i
  | DAction.connect i => i
  | DAction.poll i _ => i
  | DAction.unregister i => i

/-- An event that invokes the task's payload (as opposed to the
cooperative sleep). -/
def isPayloadEvent : Event → Bool
  | Event.sleep _ => false
  | _ => true

/-- The cooperative sleep event of the recurring loop. -/
def isSleepEvent : Event → Bool
  | Event.sleep _ => true
  | _ => false

/-- Whether an `Except` is a success. -/
def exceptIsOk : Except Exc α → Bool
  | Except.ok _ => true
  | Except.error _ => false

/-- Whether an `Except` is a raised `NumerousPingFailures`. -/
def raisesNumerous : Except Exc α → Bool
  | Except.error Exc.numerousPingFailures => true
  | _ => false

/-- The external calls made while checking device `i` stay inside the
sweep's handled repertoire: a generic device's name read succeeds, and a
ping-capable device's ping either succeeds or raises the
`NumerousPingFailures` the sweep catches. -/
def handledCall (env : PingEnv) (i : Nat) (d : Device) : Prop :=
  match d.kind with
  | DeviceKind.generic => exceptIsOk (env.readResult i) = true
  | _ => exceptIsOk (env.pingResult i) = true ∨
         raisesNumerous (env.pingResult i) = true

instance (env : PingEnv) (i : Nat) (d : Device) :
    Decidable (handledCall env i d) := by
  unfold handledCall
  cases d.kind with
  | generic =>
      exact inferInstanceAs (Decidable (exceptIsOk (env.readResult i) = true))
  | rp =>
      exact inferInstanceAs (Decidable (exceptIsOk (env.pingResult i) = true ∨
        raisesNumerous (env.pingResult i) = true))
  | rpm =>
      exact inferInstanceAs (Decidable (exceptIsOk (env.pingResult i) = true ∨
        raisesNumerous (env.pingResult i) = true))

/-- Every device from position `i` on makes only handled calls. -/
def allHandled (env : PingEnv) : Nat → List Device → Prop
  | _, [] => True
  | i, d :: rest => handledCall env i d ∧ allHandled env (i + 1) rest

instance (env : PingEnv) (i : Nat) (ds : List Device) :
    Decidable (allHandled env i ds) := by
  induction ds generalizing i with
  | nil => exact isTrue trivial
  | cons d rest ih =>
      have : Decidable (handledCall env i d ∧ allHandled env (i + 1) rest) :=
        @instDecidableAnd _ _ inferInstance (ih (i + 1))
      exact this

/-- Environment in which every payload call succeeds. -/
def env0 : Env :=
  { fnBehavior := fun _ _ => Except.ok ()
    taskOverride := fun _ _ => Except.ok () }

/-- Environment in which the payload labelled 0 raises and every other
call succeeds. -/
def envRaise : Env :=
  { fnBehavior := fun f _ =>
      if f = 0 then Except.error (Exc.other 7) else Except.ok ()
    taskOverride := fun _ _ => Except.ok () }

/-- A one-shot task carrying a bare callable. -/
def t0 : Task := Task.init (FnParam.bare 0) none 0 0 0 0

/-- A recurring task carrying a bare callable. -/
def t6 : Task := Task.init (FnParam.bare 1) none 10 1 0 0

/-- A heap holding one freshly constructed task, not yet started. -/
def s2 : Sys :=
  { heap := [(5, Task.init FnParam.noneP none 5 5 0 0)]
    tasks := []
    aioStore := [] }

/-- A heap holding one recurring task, not yet started. -/
def s8 : Sys :=
  { heap := [(1, t6)], tasks := [], aioStore := [] }

/-- The state of `s8` after starting its task once. -/
def s6 : Sys := s8.start 1

/-- A generic registered device. -/
def devA : Device :=
  { kind := DeviceKind.generic
    props := { name := "deviceA", address := "192.168.1.10", device_id := 1001
               ping_failures := 2, pollDelay := 10 } }

/-- A second generic registered device. -/
def devB : Device :=
  { kind := DeviceKind.generic
    props := { name := "deviceB", address := "192.168.1.11", device_id := 1002
               ping_failures := 0, pollDelay := 15 } }

/-- A ping-capable registered device. -/
def devP : Device :=
  { kind := DeviceKind.rp
    props := { name := "deviceP", address := "192.168.1.12", device_id := 1003
               ping_failures := 3, pollDelay := 10 } }

/-- A sweep environment in which every name read raises `Timeout`. -/
def envAbort : PingEnv :=
  { pingResult := fun _ => Except.ok 0
    readResult := fun _ => Except.error Exc.timeout }

/-- A sweep environment in which pings report 4 accumulated failures and
name reads answer `deviceA`. -/
def envW : PingEnv :=
  { pingResult := fun _ => Except.ok 4
    readResult := fun _ => Except.ok "deviceA" }

theorem heapUpdate_cons (k : Nat) (v : Task) (rest : List (Nat × Task))
    (tid : Nat) (t : Task) :
    heapUpdate ((k, v) :: rest) tid t =
      (if k = tid then (tid, t) else (k, v)) :: heapUpdate rest tid t := by
  simp [heapUpdate]

theorem lookup_heapUpdate (l : List (Nat × Task)) (tid : Nat) (t : Task) :
    (heapUpdate l tid t).lookup tid = (l.lookup tid).map (fun _ => t) := by
  induction l with
  | nil => rfl
  | cons p rest ih =>
      obtain ⟨k, v⟩ := p
      by_cases hk : k = tid
      · subst hk
        rw [heapUpdate_cons, if_pos rfl]
        simp [List.lookup]
      · have hk' : (tid == k) = false := by
          simp [Ne.symm hk]
        rw [heapUpdate_cons, if_neg hk]
        simp only [List.lookup, hk']
        exact ih

theorem callPayload_isPayload (env : Env) (t : Task) :
    isPayloadEvent (callPayload env t).1 = true := by
  rcases hf : t.fn with _ | f
  · rcases hm : t.taskMethod with _ | m <;>
      simp [callPayload, hf, hm, isPayloadEvent]
  · rcases ha : t.args with _ | a <;>
      simp [callPayload, hf, ha, isPayloadEvent]

theorem runStep_preserves_tasks (env : Env) (now elapsed : ℚ) (s : Sys)
    (h : Nat) : ((Sys.runStep env now elapsed s h).1).tasks = s.tasks := by
  unfold Sys.runStep
  repeat' split <;> try rfl

/-- Claim C7: the requested delay of a constructed Task is clamped to the
floor of 5 when strictly between 0 and 5, kept as-is when at least 5, and
a requested delay of 0 yields a one-shot with effective delay 0. -/
theorem C7_delay_clamp (fnp : FnParam) (name : Option String) (d : ℚ)
    (idv : Nat) (now jitter : ℚ) :
    (0 < d → d < 5 → (Task.init fnp name d idv now jitter).delay = 5) ∧
    (5 ≤ d → (Task.init fnp name d idv now jitter).delay = d) ∧
    (d = 0 → (Task.init fnp name d idv now jitter).delay = 0) := by
  refine ⟨fun h1 h2 => ?_, fun h5 => ?_, fun h0 => ?_⟩
  · simp only [Task.init]
    rw [if_pos h1, if_neg (not_le.mpr h2)]
  · have h1 : d > 0 := lt_of_lt_of_le (by norm_num) h5
    simp only [Task.init]
    rw [if_pos h1, if_pos h5]
  · subst h0
    simp only [Task.init]
    rw [if_neg (lt_irrefl 0)]

/-- Witness for C7 at requested delays 3, 7 and 0. -/
theorem C7_witness :
    (Task.init FnParam.noneP none 3 0 0 0).delay = 5 ∧
    (Task.init FnParam.noneP none 7 0 0 0).delay = 7 ∧
    (Task.init FnParam.noneP none 0 0 0 0).delay = 0 :=
  ⟨(C7_delay_clamp FnParam.noneP none 3 0 0 0).1 (by norm_num) (by norm_num),
   (C7_delay_clamp FnParam.noneP none 7 0 0 0).2.1 (by norm_num),
   (C7_delay_clamp FnParam.noneP none 0 0 0 0).2.2 rfl⟩

/-- Claim C9: the Task comparison is the inverse of the ascending order
on `next_execution`: with `A.next_execution < B.next_execution`, `A < B`
is false and `B < A` is true. -/
theorem C9_inverted_order (A B : Task)
    (h : A.next_execution < B.next_execution) :
    Task.pyLt A B = false ∧ Task.pyLt B A = true := by
  constructor
  · simp only [Task.pyLt, gt_iff_lt, decide_eq_false_iff_not, not_lt]
    exact le_of_lt h
  · simp only [Task.pyLt, gt_iff_lt, decide_eq_true_eq]
    exact h

/-- Witness for C9 on two tasks whose `next_execution` are 1 and 2. -/
theorem C9_witness :
    Task.pyLt (Task.init FnParam.noneP none 0 0 1 0)
      (Task.init FnParam.noneP none 0 0 2 0) = false ∧
    Task.pyLt (Task.init FnParam.noneP none 0 0 2 0)
      (Task.init FnParam.noneP none 0 0 1 0) = true :=
  C9_inverted_order _ _ (by norm_num [Task.init])

/-- Claim C10: `OneShotTask.__init__` discards the supplied callable and
arguments (both fields end up `None`), so `execute()` dispatches the
virtual `task()` method, which raises `NotImplementedError` in the base
class. -/
theorem C10_oneshot_discards (fnp : FnParam) (args : Option Arg)
    (name : String) (idv : Nat) (now jitter el : ℚ) (env : Env) :
    (OneShotTask.init fnp args name idv now jitter).fn = none ∧
    (OneShotTask.init fnp args name idv now jitter).args = none ∧
    Task.execute env now el (OneShotTask.init fnp args name idv now jitter) =
      ([Event.callTask 0 none], Except.error Exc.notImplementedError) := by
  refine ⟨rfl, rfl, ?_⟩
  norm_num [OneShotTask.init, Task.init, Task.execute, Task.oneShot,
    callPayload]

/-- Claim C5: for a Task with `delay == 0`, `execute()` invokes the
payload exactly once, never sleeps to reschedule, propagates a payload
exception to the caller, leaves the task's fields (in particular
`next_execution`) unchanged on success, and a scheduler step never
removes anything from the registry. -/
theorem C5_oneshot_execute (env : Env) (now elapsed : ℚ) (t : Task)
    (h : t.delay = 0) :
    ((Task.execute env now elapsed t).1.countP isPayloadEvent = 1) ∧
    ((Task.execute env now elapsed t).1.countP isSleepEvent = 0) ∧
    (∀ e, (callPayload env t).2 = Except.error e →
        (Task.execute env now elapsed t).2 = Except.error e) ∧
    (∀ t', (Task.execute env now elapsed t).2 = Except.ok t' → t' = t) ∧
    (∀ (s : Sys) (hdl : Nat),
        ((Sys.runStep env now elapsed s hdl).1).tasks = s.tasks) := by
  have hne : ¬ t.delay > 0 := by rw [h]; norm_num
  have hev : isPayloadEvent (callPayload env t).1 = true :=
    callPayload_isPayload env t
  rcases hcp : callPayload env t with ⟨ev, r⟩
  rw [hcp] at hev
  have hsl : isSleepEvent ev = false := by
    cases ev <;> simp [isSleepEvent, isPayloadEvent] at hev ⊢
  cases r with
  | ok u =>
      refine ⟨?_, ?_, ?_, ?_, fun s hdl => runStep_preserves_tasks _ _ _ _ _⟩
      · simp [Task.execute, if_neg hne, Task.oneShot, hcp, List.countP_cons,
          hev]
      · simp [Task.execute, if_neg hne, Task.oneShot, hcp, List.countP_cons,
          hsl]
      · intro e he
        simp at he
      · intro t' ht'
        simp [Task.execute, if_neg hne, Task.oneShot, hcp] at ht'
        exact ht'.symm
  | error e0 =>
      refine ⟨?_, ?_, ?_, ?_, fun s hdl => runStep_preserves_tasks _ _ _ _ _⟩
      · simp [Task.execute, if_neg hne, Task.oneShot, hcp, List.countP_cons,
          hev]
      · simp [Task.execute, if_neg hne, Task.oneShot, hcp, List.countP_cons,
          hsl]
      · intro e he
        simp at he
        subst he
        simp [Task.execute, if_neg hne, Task.oneShot, hcp]
      · intro t' ht'
        simp [Task.execute, if_neg hne, Task.oneShot, hcp] at ht'

/-- Witness for C5 at a concrete one-shot task and environment. -/
theorem C5_witness :
    ((Task.execute env0 0 0 t0).1.countP isPayloadEvent = 1) ∧
    ((Task.execute env0 0 0 t0).1.countP isSleepEvent = 0) ∧
    (∀ e, (callPayload env0 t0).2 = Except.error e →
        (Task.execute env0 0 0 t0).2 = Except.error e) ∧
    (∀ t', (Task.execute env0 0 0 t0).2 = Except.ok t' → t' = t0) ∧
    (∀ (s : Sys) (hdl : Nat),
        ((Sys.runStep env0 0 0 s hdl).1).tasks = s.tasks) :=
  C5_oneshot_execute env0 0 0 t0 (by decide)

/-- Claim C2 (code bug): `stop()` evaluates `self._task.cancel()`, but
`_task` is assigned only in `__init__` (to `None`) and `start()` assigns
`aio_task` instead, so `stop()` on a started Task raises
`AttributeError` instead of requesting cancellation. -/
theorem C2_stop_attribute_error (fnp : FnParam) (name : Option String)
    (d : ℚ) (idv : Nat) (now jitter : ℚ) (s : Sys) (tid : Nat)
    (hl : s.heap.lookup tid = some (Task.init fnp name d idv now jitter)) :
    ((s.start tid).heap.lookup tid).map Task.stop =
      some (Except.error Exc.attributeError) := by
  simp only [Sys.start, hl]
  rw [lookup_heapUpdate, hl]
  simp [Task.stop, Task.init]

/-- Witness for C2 on a concrete heap holding one constructed task. -/
theorem C2_witness :
    ((s2.start 5).heap.lookup 5).map Task.stop =
      some (Except.error Exc.attributeError) :=
  C2_stop_attribute_error FnParam.noneP none 5 5 0 0 s2 5 (by rfl)

/-- Claim C8 counterexample: calling `start()` twice on the same Task
object appends the same object to `Task.tasks` twice, so the registry
holds two entries with equal ids. -/
theorem C8_counterexample :
    (Sys.applyOps s8 [SysOp.start 1, SysOp.start 1]).tasks = [1, 1] ∧
    ¬ ((Sys.applyOps s8 [SysOp.start 1, SysOp.start 1]).tasks).Nodup := by
  constructor
  · rfl
  · decide

/-- Claim C8 amended: in every sequence of `start()` and cancellation
operations in which no `start()` targets a Task already present in the
registry, the registry never contains two entries with equal ids. -/
theorem C8_amended (s : Sys) (ops : List SysOp) (hs : s.tasks.Nodup)
    (hsafe : startSafe s ops) : ((s.applyOps ops).tasks).Nodup := by
  induction ops generalizing s with
  | nil => exact hs
  | cons op rest ih =>
      obtain ⟨h1, h2⟩ := hsafe
      refine ih (s.applyOp op) ?_ h2
      cases op with
      | start tid =>
          cases hl : s.heap.lookup tid with
          | none => simpa [Sys.applyOp, Sys.start, hl] using hs
          | some t =>
              simp only [Sys.applyOp, Sys.start, hl]
              refine List.Nodup.append hs (List.nodup_singleton tid) ?_
              intro a ha hb
              rw [List.mem_singleton] at hb
              subst hb
              exact h1 ha
      | cancel hd => exact hs

/-- Witness for C8 on a start followed by a cancellation. -/
theorem C8_witness :
    ((s8.applyOps [SysOp.start 1, SysOp.cancel 0]).tasks).Nodup :=
  C8_amended s8 [SysOp.start 1, SysOp.cancel 0] (by decide) (by decide)

theorem length_setCancelled (l : List AioRec) (hd : Nat) :
    (setCancelled l hd).length = l.length := by
  induction l generalizing hd with
  | nil => rfl
  | cons r rest ih =>
      cases hd with
      | zero => rfl
      | succ hd => simp [setCancelled, ih]

theorem get?_setCancelled (l : List AioRec) (hd k : Nat) :
    (setCancelled l hd).get? k =
      if k = hd then (l.get? k).map (fun r => { r with cancelled := true })
      else l.get? k := by
  induction l generalizing hd k with
  | nil => simp [setCancelled]
  | cons r rest ih =>
      cases hd with
      | zero =>
          cases k with
          | zero => simp [setCancelled]
          | succ k => simp [setCancelled]
      | succ hd =>
          cases k with
          | zero => simp [setCancelled]
          | succ k => simpa [setCancelled] using ih hd k

theorem cancelAll_ok (l : List Nat) : ∀ (s : Sys),
    (∀ tid ∈ l, ∃ t hd, s.heap.lookup tid = some t ∧ t.aio_task = some hd) →
    ∃ s', cancelAll s l = Except.ok s' ∧ s'.heap = s.heap ∧
      s'.tasks = s.tasks ∧
      s'.aioStore.length = s.aioStore.length ∧
      (∀ k r, s.aioStore.get? k = some r → r.cancelled = true →
          ∃ r', s'.aioStore.get? k = some r' ∧ r'.cancelled = true) ∧
      (∀ tid ∈ l, ∀ t hd, s.heap.lookup tid = some t →
          t.aio_task = some hd →
          ∀ r, s'.aioStore.get? hd = some r → r.cancelled = true) := by
  induction l with
  | nil =>
      intro s _
      exact ⟨s, rfl, rfl, rfl, rfl, fun k r hk hc => ⟨r, hk, hc⟩, by simp⟩
  | cons tid rest ih =>
      intro s hreq
      obtain ⟨t, hd, hlt, hat⟩ := hreq tid (List.mem_cons_self _ _)
      have hreq' : ∀ tid' ∈ rest, ∃ t' hd',
          (s.cancelHandle hd).heap.lookup tid' = some t' ∧
          t'.aio_task = some hd' :=
        fun tid' htid' => hreq tid' (List.mem_cons_of_mem _ htid')
      obtain ⟨s', hca, hheap, htasks, hlen, hmono, hcanc⟩ :=
        ih (s.cancelHandle hd) hreq'
      refine ⟨s', ?_, hheap, htasks, ?_, ?_, ?_⟩
      · simp only [cancelAll, hlt, hat]
        exact hca
      · rw [hlen]
        exact length_setCancelled s.aioStore hd
      · intro k r hk hc
        by_cases hkh : k = hd
        · subst hkh
          have h1 : (s.cancelHandle k).aioStore.get? k =
              some { r with cancelled := true } := by
            show (setCancelled s.aioStore k).get? k = _
            rw [get?_setCancelled, if_pos rfl, hk]
            rfl
          exact hmono k _ h1 rfl
        · have h1 : (s.cancelHandle hd).aioStore.get? k = some r := by
            show (setCancelled s.aioStore hd).get? k = _
            rw [get?_setCancelled, if_neg hkh]
            exact hk
          exact hmono k r h1 hc
      · intro tid2 hmem t2 hd2 hlt2 hat2 r hr
        rcases List.mem_cons.mp hmem with heq | hmem'
        · rw [heq, hlt] at hlt2
          injection hlt2 with ht2
          rw [← ht2, hat] at hat2
          injection hat2 with hh2
          rw [← hh2] at hr
          cases hks : s.aioStore.get? hd with
          | none =>
              have hle : s.aioStore.length ≤ hd := List.get?_eq_none.mp hks
              have h2 : s'.aioStore.get? hd = none := by
                apply List.get?_eq_none.mpr
                rw [hlen]
                show (setCancelled s.aioStore hd).length ≤ hd
                rw [length_setCancelled]
                exact hle
              rw [h2] at hr
              exact absurd hr (by simp)
          | some rk =>
              have h1 : (s.cancelHandle hd).aioStore.get? hd =
                  some { rk with cancelled := true } := by
                show (setCancelled s.aioStore hd).get? hd = _
                rw [get?_setCancelled, if_pos rfl, hks]
                rfl
              obtain ⟨r', hr', hc'⟩ := hmono hd _ h1 rfl
              rw [hr'] at hr
              injection hr with hrr
              rw [← hrr]
              exact hc'
        · exact hcanc tid2 hmem' t2 hd2 hlt2 hat2 r hr

/-- Claim C6: `stopAllTasks()` requests cancellation on every registered
Task's event-loop handle and clears the registry, so afterwards
`number_of_tasks() == 0` and a scheduler step on any previously
registered Task's handle produces no run; on an empty registry it is a
no-op, and running it twice in a row is safe. -/
theorem C6_stopAllTasks (s : Sys)
    (hreg : ∀ tid ∈ s.tasks, ∃ t hd, s.heap.lookup tid = some t ∧
        t.aio_task = some hd) :
    ∃ s', s.stopAllTasks = Except.ok s' ∧
      s'.number_of_tasks = 0 ∧
      (∀ tid ∈ s.tasks, ∀ t hd, s.heap.lookup tid = some t →
          t.aio_task = some hd → ∀ env now elapsed,
          (Sys.runStep env now elapsed s' hd).2 = []) ∧
      s'.stopAllTasks = Except.ok s' ∧
      (s.tasks = [] → s' = s) := by
  obtain ⟨s1, hca, hheap, htasks, hlen, hmono, hcanc⟩ :=
    cancelAll_ok s.tasks s hreg
  refine ⟨{ s1 with tasks := [] }, ?_, rfl, ?_, ?_, ?_⟩
  · simp only [Sys.stopAllTasks, hca]
  · intro tid hmem t hd hlt hat env now elapsed
    cases hg : s1.aioStore.get? hd with
    | none =>
        have hg' : s1.aioStore[hd]? = none := by
          rw [← List.get?_eq_getElem?]
          exact hg
        simp [Sys.runStep, hg']
    | some r =>
        have hc := hcanc tid hmem t hd hlt hat r hg
        have hg' : s1.aioStore[hd]? = some r := by
          rw [← List.get?_eq_getElem?]
          exact hg
        simp [Sys.runStep, hg', hc]
  · simp [Sys.stopAllTasks, cancelAll]
  · intro hnil
    rw [hnil] at hca
    simp only [cancelAll] at hca
    injection hca with hs1
    obtain ⟨sh, st, sa⟩ := s
    simp only at hnil
    subst hnil
    rw [← hs1]

/-- Witness for C6 on a registry holding one started recurring task. -/
theorem C6_witness :
    ∃ s', s6.stopAllTasks = Except.ok s' ∧
      s'.number_of_tasks = 0 ∧
      (∀ tid ∈ s6.tasks, ∀ t hd, s6.heap.lookup tid = some t →
          t.aio_task = some hd → ∀ env now elapsed,
          (Sys.runStep env now elapsed s' hd).2 = []) ∧
      s'.stopAllTasks = Except.ok s' ∧
      (s6.tasks = [] → s' = s6) :=
  C6_stopAllTasks s6 (by
    intro tid hmem
    have htl : s6.tasks = [1] := rfl
    rw [htl, List.mem_singleton] at hmem
    subst hmem
    exact ⟨{ t6 with aio_task := some 0 }, 0, rfl, rfl⟩)

theorem checkDevice_mem_cases (env : PingEnv) (i : Nat) (d : Device) :
    ∀ a ∈ (checkDevice env i d).1,
      a = DAction.ping i ∨ a = DAction.readName i ∨
      a = DAction.disconnect i false ∨ a = DAction.connect i ∨
      a = DAction.poll i d.props.pollDelay := by
  intro a ha
  unfold checkDevice at ha
  cases hk : d.kind with
  | generic =>
      rw [hk] at ha
      cases hr : env.readResult i with
      | error e =>
          rw [hr] at ha
          simp at ha
          tauto
      | ok nm =>
          rw [hr] at ha
          by_cases hnm : nm = d.props.name
          · simp [hnm] at ha
            tauto
          · simp [hnm] at ha
            tauto
  | rp =>
      rw [hk] at ha
      cases hp : env.pingResult i with
      | error e =>
          rw [hp] at ha
          by_cases he : e = Exc.numerousPingFailures
          · simp [he] at ha
            tauto
          · simp [he] at ha
            tauto
      | ok pf =>
          rw [hp] at ha
          by_cases hpf : pf > 3
          · simp [hpf] at ha
            tauto
          · simp [hpf] at ha
            tauto
  | rpm =>
      rw [hk] at ha
      cases hp : env.pingResult i with
      | error e =>
          rw [hp] at ha
          by_cases he : e = Exc.numerousPingFailures
          · simp [he] at ha
            tauto
          · simp [he] at ha
            tauto
      | ok pf =>
          rw [hp] at ha
          by_cases hpf : pf > 3
          · simp [hpf] at ha
            tauto
          · simp [hpf] at ha
            tauto

theorem checkDevice_devIdx (env : PingEnv) (i : Nat) (d : Device) :
    ∀ a ∈ (checkDevice env i d).1, DAction.devIdx a = i := by
  intro a ha
  rcases checkDevice_mem_cases env i d a ha with h | h | h | h | h <;>
    subst h <;> rfl

theorem checkDevice_mem (env : PingEnv) (i : Nat) (d : Device) :
    ∃ a ∈ (checkDevice env i d).1, DAction.devIdx a = i := by
  unfold checkDevice
  cases hk : d.kind with
  | generic =>
      cases hr : env.readResult i with
      | error e => exact ⟨DAction.readName i, by simp, rfl⟩
      | ok nm =>
          by_cases hnm : nm = d.props.name <;>
            exact ⟨DAction.readName i, by simp [hnm], rfl⟩
  | rp =>
      cases hp : env.pingResult i with
      | error e =>
          by_cases he : e = Exc.numerousPingFailures <;>
            exact ⟨DAction.ping i, by simp [he], rfl⟩
      | ok pf =>
          by_cases hpf : pf > 3 <;>
            exact ⟨DAction.ping i, by simp [hpf], rfl⟩
  | rpm =>
      cases hp : env.pingResult i with
      | error e =>
          by_cases he : e = Exc.numerousPingFailures <;>
            exact ⟨DAction.ping i, by simp [he], rfl⟩
      | ok pf =>
          by_cases hpf : pf > 3 <;>
            exact ⟨DAction.ping i, by simp [hpf], rfl⟩

theorem checkDevice_ok (env : PingEnv) (i : Nat) (d : Device)
    (h : handledCall env i d) :
    ∃ evs d', checkDevice env i d = (evs, Except.ok d') := by
  unfold handledCall at h
  unfold checkDevice
  cases hk : d.kind with
  | generic =>
      rw [hk] at h
      cases hr : env.readResult i with
      | error e =>
          rw [hr] at h
          simp [exceptIsOk] at h
      | ok nm =>
          by_cases hnm : nm = d.props.name <;> simp [hnm]
  | rp =>
      rw [hk] at h
      cases hp : env.pingResult i with
      | error e =>
          rw [hp] at h
          have he : e = Exc.numerousPingFailures := by
            rcases h with h | h
            · simp [exceptIsOk] at h
            · cases e <;> simp [raisesNumerous] at h <;> rfl
          simp [he]
      | ok pf =>
          by_cases hpf : pf > 3 <;> simp [hpf]
  | rpm =>
      rw [hk] at h
      cases hp : env.pingResult i with
      | error e =>
          rw [hp] at h
          have he : e = Exc.numerousPingFailures := by
            rcases h with h | h
            · simp [exceptIsOk] at h
            · cases e <;> simp [raisesNumerous] at h <;> rfl
          simp [he]
      | ok pf =>
          by_cases hpf : pf > 3 <;> simp [hpf]

theorem pingSweep_cons_ok (env : PingEnv) (i : Nat) (d : Device)
    (rest : List Device) (evs : List DAction) (d' : Device)
    (h : checkDevice env i d = (evs, Except.ok d')) :
    (pingSweep env i (d :: rest)).1 = evs ++ (pingSweep env (i + 1) rest).1 ∧
    (pingSweep env i (d :: rest)).2 =
      Except.map (fun ds => d' :: ds) (pingSweep env (i + 1) rest).2 := by
  rcases hps : pingSweep env (i + 1) rest with ⟨evs2, res2⟩
  cases res2 <;> simp [pingSweep, h, hps, Except.map]

theorem pingSweep_devIdx_ge (env : PingEnv) (ds : List Device) :
    ∀ i, ∀ a ∈ (pingSweep env i ds).1, i ≤ DAction.devIdx a := by
  induction ds with
  | nil =>
      intro i a ha
      simp [pingSweep] at ha
  | cons d rest ih =>
      intro i a ha
      rcases hcd : checkDevice env i d with ⟨evs, res⟩
      cases res with
      | error e =>
          simp [pingSweep, hcd] at ha
          have := checkDevice_devIdx env i d a (by rw [hcd]; exact ha)
          omega
      | ok d' =>
          obtain ⟨htr, _⟩ := pingSweep_cons_ok env i d rest evs d' hcd
          rw [htr] at ha
          rcases List.mem_append.mp ha with hm | hm
          · have := checkDevice_devIdx env i d a (by rw [hcd]; exact hm)
            omega
          · have := ih (i + 1) a hm
            omega

theorem pingSweep_ok (env : PingEnv) (ds : List Device) : ∀ i,
    allHandled env i ds →
    ∃ ds', (pingSweep env i ds).2 = Except.ok ds' ∧
      ds'.length = ds.length ∧
      ∀ j d, ds.get? j = some d →
        ∃ evs d', checkDevice env (i + j) d = (evs, Except.ok d') ∧
          ds'.get? j = some d' := by
  induction ds with
  | nil =>
      intro i _
      exact ⟨[], rfl, rfl, by intro j d hj; simp at hj⟩
  | cons d rest ih =>
      intro i h
      obtain ⟨h1, h2⟩ := h
      obtain ⟨evs, d', hcd⟩ := checkDevice_ok env i d h1
      obtain ⟨ds', hps, hlen, hmem⟩ := ih (i + 1) h2
      obtain ⟨htr, hres⟩ := pingSweep_cons_ok env i d rest evs d' hcd
      refine ⟨d' :: ds', ?_, by simp [hlen], ?_⟩
      · rw [hres, hps]
        rfl
      · intro j dj hj
        cases j with
        | zero =>
            simp at hj
            subst hj
            exact ⟨evs, d', by simpa using hcd, rfl⟩
        | succ j =>
            rw [List.get?_cons_succ] at hj
            obtain ⟨evs2, d2, hc2, hg2⟩ := hmem j dj hj
            refine ⟨evs2, d2, ?_, by simpa using hg2⟩
            have hij : i + (j + 1) = (i + 1) + j := by omega
            rw [hij]
            exact hc2

theorem pingSweep_count (env : PingEnv) (ds : List Device) : ∀ i j d,
    ds.get? j = some d → allHandled env i ds → ∀ a : DAction,
    DAction.devIdx a = i + j →
    (pingSweep env i ds).1.count a =
      ((checkDevice env (i + j) d).1).count a := by
  induction ds with
  | nil =>
      intro i j d hj
      simp at hj
  | cons d0 rest ih =>
      intro i j d hj hall a ha
      obtain ⟨h1, h2⟩ := hall
      obtain ⟨evs, d', hcd⟩ := checkDevice_ok env i d0 h1
      obtain ⟨htr, _⟩ := pingSweep_cons_ok env i d0 rest evs d' hcd
      rw [htr, List.count_append]
      cases j with
      | zero =>
          simp at hj
          subst hj
          have hz : (pingSweep env (i + 1) rest).1.count a = 0 := by
            rw [List.count_eq_zero]
            intro hmem
            have := pingSweep_devIdx_ge env rest (i + 1) a hmem
            omega
          rw [hz]
          simp only [Nat.add_zero]
          simp [hcd]
      | succ j =>
          have hz : evs.count a = 0 := by
            rw [List.count_eq_zero]
            intro hmem
            have := checkDevice_devIdx env i d0 a (by rw [hcd]; exact hmem)
            omega
          rw [hz]
          rw [List.get?_cons_succ] at hj
          have hij : i + (j + 1) = (i + 1) + j := by omega
          rw [hij] at ha ⊢
          simpa using ih (i + 1) j d hj h2 a ha

theorem pingSweep_no_unregister (env : PingEnv) (ds : List Device) :
    ∀ i k, DAction.unregister k ∉ (pingSweep env i ds).1 := by
  induction ds with
  | nil =>
      intro i k hmem
      simp [pingSweep] at hmem
  | cons d rest ih =>
      intro i k hmem
      rcases hcd : checkDevice env i d with ⟨evs, res⟩
      have hnotin : DAction.unregister k ∉ evs := by
        intro hm
        rcases checkDevice_mem_cases env i d _ (by rw [hcd]; exact hm) with
          h | h | h | h | h <;> simp at h
      cases res with
      | error e =>
          simp [pingSweep, hcd] at hmem
          exact hnotin hmem
      | ok d' =>
          obtain ⟨htr, _⟩ := pingSweep_cons_ok env i d rest evs d' hcd
          rw [htr] at hmem
          rcases List.mem_append.mp hmem with hm | hm
          · exact hnotin hm
          · exact ih (i + 1) k hm

theorem pingSweep_mem (env : PingEnv) (ds : List Device) : ∀ i j d,
    ds.get? j = some d → allHandled env i ds →
    ∃ a ∈ (pingSweep env i ds).1, DAction.devIdx a = i + j := by
  induction ds with
  | nil =>
      intro i j d hj
      simp at hj
  | cons d0 rest ih =>
      intro i j d hj hall
      obtain ⟨h1, h2⟩ := hall
      obtain ⟨evs, d', hcd⟩ := checkDevice_ok env i d0 h1
      obtain ⟨htr, _⟩ := pingSweep_cons_ok env i d0 rest evs d' hcd
      rw [htr]
      cases j with
      | zero =>
          obtain ⟨a, hamem, haidx⟩ := checkDevice_mem env i d0
          rw [hcd] at hamem
          exact ⟨a, List.mem_append_left _ hamem, by simpa using haidx⟩
      | succ j =>
          rw [List.get?_cons_succ] at hj
          obtain ⟨a, hamem, haidx⟩ := ih (i + 1) j d hj h2
          exact ⟨a, List.mem_append_right _ hamem, by omega⟩

/-- Claim C1 counterexample: with two generic registered devices whose
name reads raise `Timeout`, the first device's read exception aborts the
sweep: the sweep result is the propagated exception and every recorded
action concerns device 0 — device 1 was never checked. -/
theorem C1_counterexample :
    (pingSweep envAbort 0 [devA, devB]).2 = Except.error Exc.timeout ∧
    ∀ a ∈ (pingSweep envAbort 0 [devA, devB]).1, DAction.devIdx a = 0 := by
  refine ⟨rfl, ?_⟩
  decide

/-- Claim C1 amended: only the `NumerousPingFailures` liveness failure is
isolated per device; when every device's external call either succeeds
or (for a ping-capable device) raises `NumerousPingFailures`, the sweep
completes without aborting and every registered device's check is
carried out. -/
theorem C1_handled_failures_complete (env : PingEnv) (ds : List Device)
    (i : Nat) (hall : allHandled env i ds) :
    exceptIsOk (pingSweep env i ds).2 = true ∧
    ∀ j d, ds.get? j = some d →
      ∃ a ∈ (pingSweep env i ds).1, DAction.devIdx a = i + j := by
  obtain ⟨ds', hres, _, _⟩ := pingSweep_ok env ds i hall
  refine ⟨by rw [hres]; rfl, ?_⟩
  intro j d hj
  exact pingSweep_mem env ds i j d hj hall

/-- Witness for the amended C1 on a ping-capable and a generic device. -/
theorem C1_witness :
    exceptIsOk (pingSweep envW 0 [devP, devA]).2 = true ∧
    ∀ j d, [devP, devA].get? j = some d →
      ∃ a ∈ (pingSweep envW 0 [devP, devA]).1, DAction.devIdx a = 0 + j :=
  C1_handled_failures_complete envW [devP, devA] 0 (by decide)

/-- Claim C4: during a sweep that completes, a ping-capable device whose
`ping_failures` counter after the ping exceeds 3 receives exactly one
`disconnect(unregister=False)` call, and the monitor never issues a
registry removal for any device. -/
theorem C4_failure_disconnect (env : PingEnv) (i : Nat)
    (ds : List Device) (j : Nat) (d : Device) (pf : Nat)
    (hget : ds.get? j = some d)
    (hkind : d.kind = DeviceKind.rp ∨ d.kind = DeviceKind.rpm)
    (hping : env.pingResult (i + j) = Except.ok pf)
    (hpf : 3 < pf)
    (hall : allHandled env i ds) :
    (pingSweep env i ds).1.count (DAction.disconnect (i + j) false) = 1 ∧
    ∀ k, DAction.unregister k ∉ (pingSweep env i ds).1 := by
  constructor
  · rw [pingSweep_count env ds i j d hget hall
      (DAction.disconnect (i + j) false) rfl]
    rcases hkind with hk | hk <;>
      simp [checkDevice, hk, hping, hpf, List.count_cons]
  · intro k
    exact pingSweep_no_unregister env ds i k

/-- Witness for C4 on one ping-capable device reporting 4 failures. -/
theorem C4_witness :
    (pingSweep envW 0 [devP]).1.count (DAction.disconnect 0 false) = 1 ∧
    ∀ k, DAction.unregister k ∉ (pingSweep envW 0 [devP]).1 :=
  C4_failure_disconnect envW 0 [devP] 0 devP 4 rfl (Or.inl rfl) rfl
    (by norm_num) (by decide)

/-- Claim C3: during a sweep that completes, a generic device whose name
read returns its stored name has `ping_failures` reset to 0 in the
sweep's outcome, and receives exactly one `connect` call and exactly one
`poll` call carrying its previously configured `pollDelay`. -/
theorem C3_generic_recovery (env : PingEnv) (i : Nat) (ds : List Device)
    (j : Nat) (d : Device) (nm : String)
    (hget : ds.get? j = some d)
    (hkind : d.kind = DeviceKind.generic)
    (hread : env.readResult (i + j) = Except.ok nm)
    (hnm : nm = d.props.name)
    (hall : allHandled env i ds) :
    (∃ ds', (pingSweep env i ds).2 = Except.ok ds' ∧
        ds'.get? j = some
          { d with props := { d.props with ping_failures := 0 } }) ∧
    (pingSweep env i ds).1.count (DAction.connect (i + j)) = 1 ∧
    (pingSweep env i ds).1.count
        (DAction.poll (i + j) d.props.pollDelay) = 1 := by
  have hcdev : checkDevice env (i + j) d =
      ([DAction.readName (i + j), DAction.connect (i + j),
        DAction.poll (i + j) d.props.pollDelay],
       Except.ok { d with props := { d.props with ping_failures := 0 } }) := by
    simp [checkDevice, hkind, hread, hnm]
  refine ⟨?_, ?_, ?_⟩
  · obtain ⟨ds', hres, _, hmem⟩ := pingSweep_ok env ds i hall
    obtain ⟨evs, d', hcd, hg⟩ := hmem j d hget
    rw [hcdev] at hcd
    injection hcd with h1 h2
    injection h2 with h3
    rw [← h3] at hg
    exact ⟨ds', hres, hg⟩
  · rw [pingSweep_count env ds i j d hget hall
      (DAction.connect (i + j)) rfl, hcdev]
    simp [List.count_cons]
  · rw [pingSweep_count env ds i j d hget hall
      (DAction.poll (i + j) d.props.pollDelay) rfl, hcdev]
    simp [List.count_cons]

/-- Witness for C3 on one generic device whose read returns its name. -/
theorem C3_witness :
    (∃ ds', (pingSweep envW 0 [devA]).2 = Except.ok ds' ∧
        ds'.get? 0 = some
          { devA with props := { devA.props with ping_failures := 0 } }) ∧
    (pingSweep envW 0 [devA]).1.count (DAction.connect 0) = 1 ∧
    (pingSweep envW 0 [devA]).1.count
        (DAction.poll 0 devA.props.pollDelay) = 1 :=
  C3_generic_recovery envW 0 [devA] 0 devA "deviceA" rfl rfl rfl rfl
    (by decide)

end BAC0
